import Mathlib

/-!
Shallow embedding of `lib/couchdb.js` from the loopback-connector-couchdb
repository, together with proofs of the specification claims about it.

JavaScript values appearing in records, filters and documents are embedded
as the inductive type `JVal`; a JavaScript object is an association list of
field names to values (`JObj`).  The CouchDB store reached through `nano`
is embedded as `CouchDB.Store`: a map from document id to stored document,
plus counters that supply fresh revision tokens and fresh store-assigned
ids.  Each adapter operation is a function on this state; asynchronous
promise chains from the source become sequential state passing, which is
the denotation of the source's chains because every per-key call of a bulk
operation acts on independent documents.
-/

inductive JVal where
  | null
  | jbool (b : Bool)
  | jnum (n : Int)
  | jstr (s : String)
  | jbuf (bytes : List Nat)
  | jarr (elems : List JVal)
  | jobj (fields : List (String × JVal))
deriving Repr

/-- A JavaScript object: field names bound to values, first binding wins. -/
abbrev JObj := List (String × JVal)

/-- Lookup in a string-keyed association list (first binding wins). -/
def getA {β : Type} : List (String × β) → String → Option β
  | [], _ => none
  | (k', v) :: rest, k => if k' = k then some v else getA rest k

/-- Update a string-keyed association list: replace the first binding of the
key in place, or append a new binding at the end (JavaScript property
assignment order). -/
def setA {β : Type} : List (String × β) → String → β → List (String × β)
  | [], k, v => [(k, v)]
  | (k', v') :: rest, k, v =>
    if k' = k then (k, v) :: rest else (k', v') :: setA rest k v

/-- Remove every binding of a key from a string-keyed association list. -/
def delA {β : Type} : List (String × β) → String → List (String × β)
  | [], _ => []
  | (k', v') :: rest, k =>
    if k' = k then delA rest k else (k', v') :: delA rest k

/-- Property read `o[k]` on a JavaScript object. -/
def JObj.get (o : JObj) (k : String) : Option JVal := getA o k

/-- Property write `o[k] = v` on a JavaScript object. -/
def JObj.set (o : JObj) (k : String) (v : JVal) : JObj := setA o k v

/-- Document ids in CouchDB are strings; every id the adapter passes to the
store (record id values, `inq` keys, design-document names) is a string in
its flows.  A non-string value is modelled as having no document-id form
and so as matching no document. -/
def JVal.asId : JVal → Option String
  | .jstr s => some s
  | _ => none

/-- Revision tokens stored by the embedded store are always strings; a write
against an existing document is accepted exactly when the incoming `_rev`
is a string equal to the stored one (CouchDB optimistic concurrency). -/
def revMatches (incoming stored : Option JVal) : Bool :=
  match incoming, stored with
  | some (.jstr a), some (.jstr b) => a = b
  | _, _ => false

namespace CouchDB

/-- Raw `getIdValue(modelName, data)`: read the model's id field off an
object (`idName` is the model's designated identifier field). -/
def getIdValue (idName : String) (data : JObj) : Option JVal :=
  JObj.get data idName

/-- The id value when it passes the source's `id != null` test: absent and
`null` values are both rejected (JavaScript `!= null` excludes exactly
`undefined` and `null`). -/
def presentIdValue (idName : String) (data : JObj) : Option JVal :=
  match JObj.get data idName with
  | some JVal.null => none
  | none => none
  | some v => some v

/-- `CouchDB.prototype.getKeysFromWhere` (lib/couchdb.js lines 353-366):
read the id field off the `where` object; `key == null` gives `[]`; a
string or Buffer gives a one-element list; an object whose `inq` property
is an array gives that array verbatim; anything else gives `[]`. -/
def getKeysFromWhere (idName : String) (w : JVal) : List JVal :=
  let key : Option JVal :=
    match w with
    | JVal.jobj fields =>
      match JObj.get fields idName with
      | some JVal.null => none
      | r => r
    | _ => none
  match key with
  | none => []
  | some (JVal.jstr s) => [JVal.jstr s]
  | some (JVal.jbuf b) => [JVal.jbuf b]
  | some (JVal.jobj kf) =>
    match JObj.get kf "inq" with
    | some (JVal.jarr xs) => xs
    | _ => []
  | some _ => []

/-- Errors surfaced by the embedded store and adapter. -/
inductive DbErr where
  | notFound
  | conflict
  | configError
deriving Repr, DecidableEq

/-- Result of a successful `nano` insert: the document id and new revision. -/
structure InsertResult where
  id : String
  rev : String
deriving Repr, DecidableEq

/-- The single bound database of the embedded store: documents keyed by id,
plus counters supplying fresh revision strings and fresh store-assigned
ids (standing in for CouchDB's uuids). -/
structure Store where
  docs : List (String × JObj)
  nextRev : Nat
  nextId : Nat

/-- The empty database. -/
def emptyStore : Store := ⟨[], 0, 0⟩

/-- Commit a document under the id `t`: the stored document is the incoming
data with `_id` set to `t` and `_rev` set to a fresh revision string. -/
def writeDoc (t : String) (data : JObj) (s : Store) :
    Except DbErr InsertResult × Store :=
  let rev := toString s.nextRev
  let stored := JObj.set (JObj.set data "_id" (JVal.jstr t)) "_rev" (JVal.jstr rev)
  (.ok ⟨t, rev⟩, ⟨setA s.docs t stored, s.nextRev + 1, s.nextId⟩)

/-- `insertAsync(data, options)` (nano `db.insert` as used by the adapter):
the target id is `options.docName` if given, else `data._id`, else the
store assigns a fresh one; a write targeting an existing document must
carry its current `_rev` or the store answers Conflict. -/
def insertAsync (data : JObj) (options : JObj) (s : Store) :
    Except DbErr InsertResult × Store :=
  let target : Option String :=
    match JObj.get options "docName" with
    | some v => v.asId
    | none =>
      match JObj.get data "_id" with
      | some v => v.asId
      | none => none
  match target with
  | some t =>
    match getA s.docs t with
    | some existing =>
      if revMatches (JObj.get data "_rev") (JObj.get existing "_rev")
      then writeDoc t data s
      else (.error .conflict, s)
    | none => writeDoc t data s
  | none =>
    writeDoc ("gen-" ++ toString s.nextId) data { s with nextId := s.nextId + 1 }

/-- `getAsync(id)` (nano `db.get`): fetch a document by id, rejecting with a
404 when it does not exist. -/
def getAsync (id : JVal) (s : Store) : Except DbErr JObj :=
  match id.asId with
  | none => .error .notFound
  | some t =>
    match getA s.docs t with
    | some d => .ok d
    | none => .error .notFound

/-- `destroyAsync(id, rev)` (nano `db.destroy`): delete a document, requiring
its current revision. -/
def destroyAsync (id rev : JVal) (s : Store) : Except DbErr Unit × Store :=
  match id.asId with
  | none => (.error .notFound, s)
  | some t =>
    match getA s.docs t with
    | none => (.error .notFound, s)
    | some d =>
      if revMatches (some rev) (JObj.get d "_rev")
      then (.ok (), ⟨delA s.docs t, s.nextRev, s.nextId⟩)
      else (.error .conflict, s)

/-- `CouchDB.prototype.findById` (lib/couchdb.js lines 322-331): get the
document by id (a missing document surfaces as a 404 rejection), then
`setIdValue` copies the stored `_id` onto the model's id field. -/
def findById (idName : String) (id : JVal) (s : Store) : Except DbErr JObj :=
  match getAsync id s with
  | .error e => .error e
  | .ok data => .ok (JObj.set data idName ((JObj.get data "_id").getD JVal.null))

/-- `CouchDB.prototype.destroyById` (lib/couchdb.js lines 336-344): get the
document, then delete it by its stored `_id` and `_rev`. -/
def destroyById (id : JVal) (s : Store) : Except DbErr Unit × Store :=
  match getAsync id s with
  | .error e => (.error e, s)
  | .ok data =>
    destroyAsync ((JObj.get data "_id").getD JVal.null)
      ((JObj.get data "_rev").getD JVal.null) s

/-- `CouchDB.prototype.destroy` (lib/couchdb.js lines 150-153): success of
`destroyById` becomes count 1, any failure becomes count 0
(`.return(...).catchReturn(...)`). -/
def destroy (id : JVal) (s : Store) : Nat × Store :=
  match destroyById id s with
  | (.ok _, s') => (1, s')
  | (.error _, s') => (0, s')

/-- `CouchDB.prototype.create` (lib/couchdb.js lines 115-125): when the
record carries a non-null id value, `Object.assign` builds a copy of the
record with `_id` set (the caller's record is never written to); the result
is the pair of stored id and revision.  The middle component of the result
is the caller's record as observable after the call. -/
def create (idName : String) (data : JObj) (options : JObj) (s : Store) :
    Except DbErr (String × String) × JObj × Store :=
  let outgoing :=
    match presentIdValue idName data with
    | some v => JObj.set data "_id" v
    | none => data
  let (r, s') := insertAsync outgoing options s
  (r.map (fun ir => (ir.id, ir.rev)), data, s')

/-- `CouchDB.prototype.save` (lib/couchdb.js lines 132-143): a `null`
options argument is replaced by a fresh empty object; when the record has a
non-null id value it is written onto `options.docName`, forcing the insert
to target that id.  The middle component of the result is the caller's
options object as observable after the call (`none` when the caller passed
null and so observes nothing). -/
def save (idName : String) (data : JObj) (options : Option JObj) (s : Store) :
    Except DbErr InsertResult × Option JObj × Store :=
  let opts0 := options.getD []
  let opts :=
    match presentIdValue idName data with
    | some v => JObj.set opts0 "docName" v
    | none => opts0
  let (r, s') := insertAsync data opts s
  (r, options.map (fun _ => opts), s')

/-- Outcome of `replaceById`: the adapter result, the caller's record and
options objects as observable after the call, and the store state. -/
structure ReplaceOutcome where
  result : Except DbErr JObj
  dataAfter : JObj
  optionsAfter : Option JObj
  store : Store

/-- `CouchDB.prototype.replaceById` (lib/couchdb.js lines 177-187): fetch
the current document (rejecting NotFound when absent, before any write),
write its `_rev` onto the caller's record, save, then fetch and return the
fresh document. -/
def replaceById (idName : String) (id : JVal) (data : JObj)
    (options : Option JObj) (s : Store) : ReplaceOutcome :=
  match findById idName id s with
  | .error e => ⟨.error e, data, options, s⟩
  | .ok res =>
    let data' := JObj.set data "_rev" ((JObj.get res "_rev").getD JVal.null)
    match save idName data' options s with
    | (.error e, optsAfter, s') => ⟨.error e, data', optsAfter, s'⟩
    | (.ok _, optsAfter, s') =>
      match findById idName id s' with
      | .error e => ⟨.error e, data', optsAfter, s'⟩
      | .ok doc => ⟨.ok doc, data', optsAfter, s'⟩

/-- `CouchDB.prototype.all` (lib/couchdb.js lines 202-217): a missing or
null `where` gives an empty result; otherwise the keys derived from the
`where` clause are each fetched by id, failures are converted to `false`
(`catchReturn(false)`) and dropped (`filter(Boolean)`), keeping the key
list's order.  The source's `if (keys)` test is always true because
`getKeysFromWhere` always returns an array, so the map branch is always
taken. -/
def all (idName : String) (query : JObj) (s : Store) : List JObj :=
  match JObj.get query "where" with
  | none => []
  | some JVal.null => []
  | some w =>
    (getKeysFromWhere idName w).filterMap (fun k => (findById idName k s).toOption)

/-- Modelled from the spec: the external `mixable-object` `merge`
(`merge.call(data, designDocs[name])`, not part of this repository) is the
two-map merge the spec describes — start from the stored fields, overwrite
with the configured fields, keep the rest. -/
def mergeObj (target source : JObj) : JObj :=
  source.foldl (fun acc kv => JObj.set acc kv.1 kv.2) target

/-- One iteration of `CouchDB.prototype.saveDesignDocs` (lib/couchdb.js
lines 387-402) for a single configured design document: fetch
`_design/<name>`; if found, insert the merge of the configured definition
onto the stored fields (the stored `_rev` rides along, so the write is
accepted); if the fetch failed, insert the configured definition fresh.
Both writes target the design id through `options.docName`. -/
def saveDesignDoc (name : String) (dd : JObj) (s : Store) :
    Except DbErr InsertResult × Store :=
  let did := JVal.jstr ("_design/" ++ name)
  let opts : JObj := [("docName", did)]
  match getAsync did s with
  | .ok data => insertAsync (mergeObj data dd) opts s
  | .error _ => insertAsync dd opts s

/-- `CouchDB.prototype.saveDesignDocs` over the configured list: each
design document is synced independently (the source issues them
concurrently; distinct design documents touch distinct ids, so the
sequential fold is the same state transformation). -/
def saveDesignDocs (designDocs : List (String × JObj)) (s : Store) : Store :=
  designDocs.foldl (fun acc nd => (saveDesignDoc nd.1 nd.2 acc).2) s

/-- The recognized configuration options that the modelled code paths read:
the database name under `database` or `db`, and the optional design
document definitions.  (Host, port, protocol and url only shape the
transport URL and are not read by the modelled logic.) -/
structure Settings where
  database : Option String
  db : Option String
  designDocs : Option (List (String × JObj))

/-- JavaScript truthiness test for a possibly-missing string: `undefined`
and the empty string are falsy. -/
def falsyName : Option String → Bool
  | none => true
  | some s => s = ""

/-- The database name the connection binds (lib/couchdb.js lines 71-81):
`connect` copies the settings, sets `database = database || db` on the
copy, throws when the result is falsy, and calls `use` with it. -/
def connectDbName (st : Settings) : Option String :=
  let d := if falsyName st.database then st.db else st.database
  if falsyName d then none else d

/-- The database name used by `getDB`, `autoupdate` and `automigrate`:
these read `this.settings.database` directly (lines 274, 301, 303, 381),
which the `database || db` normalization never reaches because it was
applied to a local copy.  A missing value is coerced by string
interpolation into the literal path segment `undefined` when nano builds
the request URL. -/
def lifecycleDbName (st : Settings) : String :=
  match st.database with
  | some n => n
  | none => "undefined"

/-- The CouchDB server as the `_db` handle sees it: the named databases. -/
structure Server where
  dbs : List (String × Store)

/-- `CouchDB.prototype.getDB` (lib/couchdb.js lines 380-382): fetch the
info of `settings.database`, converting any failure into `false`; the
modelled result is the truthiness of what that yields. -/
def getDB (st : Settings) (srv : Server) : Bool :=
  (getA srv.dbs (lifecycleDbName st)).isSome

/-- The design-document sync as run from `autoupdate`/`automigrate`: the
writes go through the connection, so they land in the database bound by
`connect` (not the lifecycle name).  A missing database surfaces the 404
of the underlying calls. -/
def syncDesignDocs (st : Settings) (dds : List (String × JObj))
    (srv : Server) : Except DbErr Server :=
  match connectDbName st with
  | none => .error .configError
  | some c =>
    match getA srv.dbs c with
    | none => .error .notFound
    | some store => .ok ⟨setA srv.dbs c (saveDesignDocs dds store)⟩

/-- `CouchDB.prototype.autoupdate` (lib/couchdb.js lines 267-288): connect
(failing on a missing database name), check `settings.database` via
`getDB`, create it when absent, then sync design documents if configured. -/
def autoupdate (st : Settings) (srv : Server) : Except DbErr Server :=
  match connectDbName st with
  | none => .error .configError
  | some _ =>
    let n := lifecycleDbName st
    let srv1 : Server := if (getA srv.dbs n).isSome then srv else ⟨setA srv.dbs n emptyStore⟩
    match st.designDocs with
    | none => .ok srv1
    | some dds => syncDesignDocs st dds srv1

/-- `CouchDB.prototype.automigrate` (lib/couchdb.js lines 295-313): connect,
destroy `settings.database` when it exists, recreate it fresh, then sync
design documents if configured. -/
def automigrate (st : Settings) (srv : Server) : Except DbErr Server :=
  match connectDbName st with
  | none => .error .configError
  | some _ =>
    let n := lifecycleDbName st
    let srv1 : Server := if (getA srv.dbs n).isSome then ⟨delA srv.dbs n⟩ else srv
    let srv2 : Server := ⟨setA srv1.dbs n emptyStore⟩
    match st.designDocs with
    | none => .ok srv2
    | some dds => syncDesignDocs st dds srv2

/-- `findById` as issued against the server after lifecycle operations: the
read goes through the connection, i.e. against the database bound by
`connect`. -/
def serverFindById (st : Settings) (srv : Server) (idName : String)
    (id : JVal) : Except DbErr JObj :=
  match connectDbName st with
  | none => .error .configError
  | some c =>
    match getA srv.dbs c with
    | none => .error .notFound
    | some store => findById idName id store

/-- The connection handle `this._connection`: the bound database name plus
an identity that distinguishes separately initialized handles. -/
structure Conn where
  database : String
  handleId : Nat
deriving Repr, DecidableEq

/-- The adapter instance's connection state: the current handle (if any)
and a counter supplying identities for freshly created handles. -/
structure AdapterState where
  connection : Option Conn
  nextHandle : Nat
deriving Repr, DecidableEq

/-- `CouchDB.prototype.connect` (lib/couchdb.js lines 67-85): when
`_connection` is already set it is returned as is; otherwise the database
name is resolved (`database || db`, throwing when falsy) and a fresh
handle is created and stored. -/
def connect (st : Settings) (a : AdapterState) :
    Except DbErr (Conn × AdapterState) :=
  match a.connection with
  | some c => .ok (c, a)
  | none =>
    match connectDbName st with
    | none => .error .configError
    | some n => .ok (⟨n, a.nextHandle⟩, ⟨some ⟨n, a.nextHandle⟩, a.nextHandle + 1⟩)

/-- `CouchDB.prototype.disconnect` (lib/couchdb.js lines 90-103): always
resolves with `true`; when a connection exists it is nulled out. -/
def disconnect (a : AdapterState) : Bool × AdapterState :=
  (true, { a with connection := none })

end CouchDB

/-! ### Association list lemmas -/

theorem getA_setA_self {β : Type} (l : List (String × β)) (k : String) (v : β) :
    getA (setA l k v) k = some v := by
  induction l with
  | nil => simp [setA, getA]
  | cons hd tl ih =>
    obtain ⟨k', v'⟩ := hd
    by_cases hk : k' = k
    · simp [setA, hk, getA]
    · simp [setA, hk, getA, ih]

theorem getA_setA_other {β : Type} (l : List (String × β)) (k k0 : String) (v : β)
    (h : k ≠ k0) : getA (setA l k0 v) k = getA l k := by
  have hne : ¬ k0 = k := fun he => h he.symm
  induction l with
  | nil => simp [setA, getA, hne]
  | cons hd tl ih =>
    obtain ⟨k', v'⟩ := hd
    by_cases hk : k' = k0
    · simp [setA, hk, getA, hne]
    · simp [setA, hk, getA, ih]

theorem getA_delA_self {β : Type} (l : List (String × β)) (k : String) :
    getA (delA l k) k = none := by
  induction l with
  | nil => rfl
  | cons hd tl ih =>
    obtain ⟨k', v'⟩ := hd
    by_cases hk : k' = k
    · simp [delA, hk, ih]
    · simp [delA, hk, getA, ih]

theorem getA_delA_other {β : Type} (l : List (String × β)) (k k0 : String)
    (h : k ≠ k0) : getA (delA l k0) k = getA l k := by
  have hne : ¬ k0 = k := fun he => h he.symm
  induction l with
  | nil => rfl
  | cons hd tl ih =>
    obtain ⟨k', v'⟩ := hd
    by_cases hk : k' = k0
    · simp [delA, hk, getA, ih, hne]
    · simp [delA, hk, getA, ih]

theorem getA_eq_none_of_not_mem {β : Type} (l : List (String × β)) (k : String)
    (h : k ∉ l.map Prod.fst) : getA l k = none := by
  induction l with
  | nil => rfl
  | cons hd tl ih =>
    obtain ⟨k', v'⟩ := hd
    simp only [List.map_cons, List.mem_cons, not_or] at h
    have hne : ¬ k' = k := fun he => h.1 he.symm
    simp [getA, hne, ih h.2]

theorem JObj.get_set_self (o : JObj) (k : String) (v : JVal) :
    JObj.get (JObj.set o k v) k = some v := getA_setA_self o k v

theorem JObj.get_set_other (o : JObj) (k k0 : String) (v : JVal) (h : k ≠ k0) :
    JObj.get (JObj.set o k0 v) k = JObj.get o k := getA_setA_other o k k0 v h

/-! ### Merge lemmas -/

theorem mergeObj_nil (t : JObj) : CouchDB.mergeObj t [] = t := rfl

theorem mergeObj_cons (t : JObj) (k : String) (v : JVal) (rest : JObj) :
    CouchDB.mergeObj t ((k, v) :: rest) = CouchDB.mergeObj (JObj.set t k v) rest := rfl

/-- Merging does not touch fields absent from the source object. -/
theorem get_mergeObj_notin (t dd : JObj) (k : String)
    (h : JObj.get dd k = none) :
    JObj.get (CouchDB.mergeObj t dd) k = JObj.get t k := by
  induction dd generalizing t with
  | nil => rfl
  | cons hd tl ih =>
    obtain ⟨k0, v0⟩ := hd
    have hk : ¬ k0 = k := by
      intro he
      simp [JObj.get, getA, he] at h
    have h' : JObj.get tl k = none := by
      simpa [JObj.get, getA, hk] using h
    rw [mergeObj_cons, ih (JObj.set t k0 v0) h',
      JObj.get_set_other t k k0 v0 (fun he => hk he.symm)]

/-- Merging installs every field of a duplicate-free source object. -/
theorem get_mergeObj_of_get (t dd : JObj) (k : String) (v : JVal)
    (hnd : (dd.map Prod.fst).Nodup) (h : JObj.get dd k = some v) :
    JObj.get (CouchDB.mergeObj t dd) k = some v := by
  induction dd generalizing t with
  | nil => simp [JObj.get, getA] at h
  | cons hd tl ih =>
    obtain ⟨k0, v0⟩ := hd
    simp only [List.map_cons, List.nodup_cons] at hnd
    rw [mergeObj_cons]
    by_cases hk : k0 = k
    · subst hk
      have hv : v0 = v := by simpa [JObj.get, getA] using h
      have hnotin : JObj.get tl k0 = none :=
        getA_eq_none_of_not_mem tl k0 hnd.1
      rw [get_mergeObj_notin _ _ _ hnotin, JObj.get_set_self]
      exact congrArg some hv
    · have h' : JObj.get tl k = some v := by
        simpa [JObj.get, getA, hk] using h
      exact ih hnd.2 h' (t := JObj.set t k0 v0)

/-! ### Store behavior lemmas -/

theorem JVal.asId_eq_some (id : JVal) (t : String) (h : JVal.asId id = some t) :
    id = JVal.jstr t := by
  cases id <;> simp [JVal.asId] at h
  exact congrArg JVal.jstr h

/-- A lookup that can reach no stored document makes `findById` fail with
the 404. -/
theorem findById_notFound (idName : String) (id : JVal) (s : CouchDB.Store)
    (h : ∀ t, JVal.asId id = some t → getA s.docs t = none) :
    CouchDB.findById idName id s = .error .notFound := by
  unfold CouchDB.findById CouchDB.getAsync
  cases hid : JVal.asId id with
  | none => simp
  | some t => simp [h t hid]

/-- One run of the design-document sync for a single name always writes:
the committed document is the configured definition merged onto the stored
fields (or taken alone when nothing was stored), with `_id` and a fresh
`_rev` installed on top. -/
theorem saveDesignDoc_run (name : String) (dd : JObj) (s : CouchDB.Store)
    (hrev : JObj.get dd "_rev" = none)
    (hstored : ∀ e, getA s.docs ("_design/" ++ name) = some e →
      ∃ r, JObj.get e "_rev" = some (JVal.jstr r)) :
    (CouchDB.saveDesignDoc name dd s).2 =
      ⟨setA s.docs ("_design/" ++ name)
        (JObj.set (JObj.set
          ((getA s.docs ("_design/" ++ name)).elim dd
            (fun e => CouchDB.mergeObj e dd))
          "_id" (JVal.jstr ("_design/" ++ name)))
          "_rev" (JVal.jstr (toString s.nextRev))),
        s.nextRev + 1, s.nextId⟩ := by
  cases hE : getA s.docs ("_design/" ++ name) with
  | none =>
    have hA : CouchDB.getAsync (JVal.jstr ("_design/" ++ name)) s = .error .notFound := by
      simp [CouchDB.getAsync, JVal.asId, hE]
    simp [CouchDB.saveDesignDoc, hA, CouchDB.insertAsync, JObj.get, getA,
      JVal.asId, hE, CouchDB.writeDoc]
  | some e =>
    obtain ⟨r, hr⟩ := hstored e hE
    have hA : CouchDB.getAsync (JVal.jstr ("_design/" ++ name)) s = .ok e := by
      simp [CouchDB.getAsync, JVal.asId, hE]
    have hr' : getA e "_rev" = some (JVal.jstr r) := hr
    have hm' : getA (CouchDB.mergeObj e dd) "_rev" = some (JVal.jstr r) := by
      have h1 := get_mergeObj_notin e dd "_rev" hrev
      simp only [JObj.get] at h1
      rw [h1, hr']
    simp [CouchDB.saveDesignDoc, hA, CouchDB.insertAsync, JObj.get, getA,
      JVal.asId, hE, CouchDB.writeDoc, revMatches, hm', hr']

/-- Syncing one design document leaves every other document id untouched. -/
theorem getA_saveDesignDoc_other (name : String) (dd : JObj) (s : CouchDB.Store)
    (t : String) (h : t ≠ "_design/" ++ name) :
    getA ((CouchDB.saveDesignDoc name dd s).2).docs t = getA s.docs t := by
  have hset : ∀ d : JObj, getA (setA s.docs ("_design/" ++ name) d) t = getA s.docs t :=
    fun d => getA_setA_other s.docs t _ d h
  cases hD : getA s.docs ("_design/" ++ name) with
  | none =>
    have hA : CouchDB.getAsync (JVal.jstr ("_design/" ++ name)) s = .error .notFound := by
      simp [CouchDB.getAsync, JVal.asId, hD]
    simp [CouchDB.saveDesignDoc, hA, CouchDB.insertAsync, JObj.get, getA,
      JVal.asId, hD, CouchDB.writeDoc, hset]
  | some d =>
    have hA : CouchDB.getAsync (JVal.jstr ("_design/" ++ name)) s = .ok d := by
      simp [CouchDB.getAsync, JVal.asId, hD]
    cases hR : revMatches (getA (CouchDB.mergeObj d dd) "_rev") (getA d "_rev") with
    | true =>
      simp [CouchDB.saveDesignDoc, hA, CouchDB.insertAsync, JObj.get, getA,
        JVal.asId, hD, hR, CouchDB.writeDoc, hset]
    | false =>
      simp [CouchDB.saveDesignDoc, hA, CouchDB.insertAsync, JObj.get, getA,
        JVal.asId, hD, hR]

/-- Syncing a list of design documents touches only the design ids of the
configured names. -/
theorem getA_saveDesignDocs_other (dds : List (String × JObj)) (s : CouchDB.Store)
    (t : String) (h : ∀ nm ∈ dds.map Prod.fst, t ≠ "_design/" ++ nm) :
    getA (CouchDB.saveDesignDocs dds s).docs t = getA s.docs t := by
  induction dds generalizing s with
  | nil => rfl
  | cons hd tl ih =>
    obtain ⟨nm, dd⟩ := hd
    have h0 : t ≠ "_design/" ++ nm := h nm (by simp)
    have htl : ∀ x ∈ tl.map Prod.fst, t ≠ "_design/" ++ x := by
      intro x hx
      exact h x (by simp [hx])
    calc getA (CouchDB.saveDesignDocs ((nm, dd) :: tl) s).docs t
        = getA (CouchDB.saveDesignDocs tl (CouchDB.saveDesignDoc nm dd s).2).docs t := rfl
      _ = getA ((CouchDB.saveDesignDoc nm dd s).2).docs t := ih _ htl
      _ = getA s.docs t := getA_saveDesignDoc_other nm dd s t h0

/-! ### Claim theorems -/

/-- C4: key derivation maps an equality test on the identifier field with a
string or byte-buffer value to the one-element key list, an inq operator
carrying an array to that exact array verbatim (order and duplicates
preserved, since it is returned as is), and any other shape — absent
identifier, null, numbers, booleans, bare arrays, objects without an
array-valued inq — to the empty key list; the spec's three examples hold
concretely. -/
theorem c4_getKeysFromWhere_shapes (idName s0 : String) (bs : List Nat)
    (xs : List JVal) (w : JObj) :
    (JObj.get w idName = some (JVal.jstr s0) →
      CouchDB.getKeysFromWhere idName (JVal.jobj w) = [JVal.jstr s0]) ∧
    (JObj.get w idName = some (JVal.jbuf bs) →
      CouchDB.getKeysFromWhere idName (JVal.jobj w) = [JVal.jbuf bs]) ∧
    (∀ kf, JObj.get w idName = some (JVal.jobj kf) →
      JObj.get kf "inq" = some (JVal.jarr xs) →
      CouchDB.getKeysFromWhere idName (JVal.jobj w) = xs) ∧
    (JObj.get w idName = none →
      CouchDB.getKeysFromWhere idName (JVal.jobj w) = []) ∧
    (JObj.get w idName = some JVal.null →
      CouchDB.getKeysFromWhere idName (JVal.jobj w) = []) ∧
    (∀ n : Int, JObj.get w idName = some (JVal.jnum n) →
      CouchDB.getKeysFromWhere idName (JVal.jobj w) = []) ∧
    (∀ b : Bool, JObj.get w idName = some (JVal.jbool b) →
      CouchDB.getKeysFromWhere idName (JVal.jobj w) = []) ∧
    (∀ ys, JObj.get w idName = some (JVal.jarr ys) →
      CouchDB.getKeysFromWhere idName (JVal.jobj w) = []) ∧
    (∀ kf, JObj.get w idName = some (JVal.jobj kf) →
      (∀ zs, JObj.get kf "inq" ≠ some (JVal.jarr zs)) →
      CouchDB.getKeysFromWhere idName (JVal.jobj w) = []) ∧
    CouchDB.getKeysFromWhere "id" (JVal.jobj [("id", JVal.jstr "x")]) = [JVal.jstr "x"] ∧
    CouchDB.getKeysFromWhere "id"
      (JVal.jobj [("id", JVal.jobj [("inq", JVal.jarr [JVal.jstr "a", JVal.jstr "b"])])])
      = [JVal.jstr "a", JVal.jstr "b"] ∧
    CouchDB.getKeysFromWhere "id" (JVal.jobj [("name", JVal.jstr "x")]) = [] := by
  refine ⟨?_, ?_, ?_, ?_, ?_, ?_, ?_, ?_, ?_, rfl, rfl, rfl⟩
  · intro h
    simp [CouchDB.getKeysFromWhere, h]
  · intro h
    simp [CouchDB.getKeysFromWhere, h]
  · intro kf h hq
    simp [CouchDB.getKeysFromWhere, h, hq]
  · intro h
    simp [CouchDB.getKeysFromWhere, h]
  · intro h
    simp [CouchDB.getKeysFromWhere, h]
  · intro n h
    simp [CouchDB.getKeysFromWhere, h]
  · intro b h
    simp [CouchDB.getKeysFromWhere, h]
  · intro ys h
    simp [CouchDB.getKeysFromWhere, h]
  · intro kf h hnq
    simp only [CouchDB.getKeysFromWhere, h]

/-- Witness for c4: the shape clauses evaluated at concrete filters. -/
theorem c4_witness :
    CouchDB.getKeysFromWhere "id" (JVal.jobj [("id", JVal.jstr "x")]) = [JVal.jstr "x"] ∧
    CouchDB.getKeysFromWhere "id" (JVal.jobj [("id", JVal.jbuf [1, 2])]) = [JVal.jbuf [1, 2]] ∧
    CouchDB.getKeysFromWhere "id" (JVal.jobj [("id", JVal.jnum 5)]) = [] := by
  have h1 := c4_getKeysFromWhere_shapes "id" "x" [1, 2] [] [("id", JVal.jstr "x")]
  have h2 := c4_getKeysFromWhere_shapes "id" "x" [1, 2] [] [("id", JVal.jbuf [1, 2])]
  have h3 := c4_getKeysFromWhere_shapes "id" "x" [1, 2] [] [("id", JVal.jnum 5)]
  exact ⟨h1.1 rfl, h2.2.1 rfl, h3.2.2.2.2.2.1 5 rfl⟩

/-- C1: for every key list derived from an id inq filter, all fetches each
key by id and returns exactly the fetched documents that exist, in the
order of the key list (a filterMap over the keys, not completion order),
silently omitting keys whose fetch fails; concretely, with documents a and
b stored and missing absent, the inq a/missing/b query returns the
documents for a and b in that order. -/
theorem c1_all_inq_fetch_order (idName : String) (keys : List JVal) (s : CouchDB.Store) :
    CouchDB.all idName
      [("where", JVal.jobj [(idName, JVal.jobj [("inq", JVal.jarr keys)])])] s
      = keys.filterMap (fun k => (CouchDB.findById idName k s).toOption) ∧
    CouchDB.all "id"
      [("where", JVal.jobj [("id", JVal.jobj [("inq",
        JVal.jarr [JVal.jstr "a", JVal.jstr "missing", JVal.jstr "b"])])])]
      ⟨[("a", [("_id", JVal.jstr "a"), ("_rev", JVal.jstr "0"), ("name", JVal.jstr "A")]),
        ("b", [("_id", JVal.jstr "b"), ("_rev", JVal.jstr "1"), ("name", JVal.jstr "B")])], 2, 0⟩
      = [[("_id", JVal.jstr "a"), ("_rev", JVal.jstr "0"), ("name", JVal.jstr "A"),
          ("id", JVal.jstr "a")],
         [("_id", JVal.jstr "b"), ("_rev", JVal.jstr "1"), ("name", JVal.jstr "B"),
          ("id", JVal.jstr "b")]] := by
  constructor
  · simp [CouchDB.all, JObj.get, getA, CouchDB.getKeysFromWhere]
  · rfl

/-- C2: replaceById on an id with no stored document fails with NotFound
before any write: the store is unchanged, and the caller's record is not
even touched on this path. -/
theorem c2_replaceById_notFound (idName : String) (id : JVal) (data : JObj)
    (options : Option JObj) (s : CouchDB.Store)
    (h : ∀ t, JVal.asId id = some t → getA s.docs t = none) :
    (CouchDB.replaceById idName id data options s).result = .error .notFound ∧
    (CouchDB.replaceById idName id data options s).store = s ∧
    (CouchDB.replaceById idName id data options s).dataAfter = data := by
  have hf := findById_notFound idName id s h
  simp [CouchDB.replaceById, hf]

/-- Witness for c2: a replace against the empty store. -/
theorem c2_witness :
    (CouchDB.replaceById "id" (JVal.jstr "x") [("name", JVal.jstr "n")] none
      CouchDB.emptyStore).result = .error .notFound ∧
    (CouchDB.replaceById "id" (JVal.jstr "x") [("name", JVal.jstr "n")] none
      CouchDB.emptyStore).store = CouchDB.emptyStore ∧
    (CouchDB.replaceById "id" (JVal.jstr "x") [("name", JVal.jstr "n")] none
      CouchDB.emptyStore).dataAfter = [("name", JVal.jstr "n")] :=
  c2_replaceById_notFound "id" (JVal.jstr "x") [("name", JVal.jstr "n")] none
    CouchDB.emptyStore (fun _ _ => rfl)

/-- C3: destroy converts destroyById success into count 1 and any failure
into count 0; destroying an existing document twice reports count 1 and
then count 0, the second destroyById failing with NotFound. -/
theorem c3_destroy_counts (id : JVal) (t r : String) (s : CouchDB.Store) (d : JObj)
    (ht : JVal.asId id = some t)
    (hd : getA s.docs t = some d)
    (hid : JObj.get d "_id" = some (JVal.jstr t))
    (hrev : JObj.get d "_rev" = some (JVal.jstr r)) :
    (∀ (id2 : JVal) (u : CouchDB.Store) (v : Unit) (u' : CouchDB.Store),
      CouchDB.destroyById id2 u = (.ok v, u') → CouchDB.destroy id2 u = (1, u')) ∧
    (∀ (id2 : JVal) (u : CouchDB.Store) (e : CouchDB.DbErr) (u' : CouchDB.Store),
      CouchDB.destroyById id2 u = (.error e, u') → CouchDB.destroy id2 u = (0, u')) ∧
    CouchDB.destroy id s = (1, ⟨delA s.docs t, s.nextRev, s.nextId⟩) ∧
    (CouchDB.destroyById id ⟨delA s.docs t, s.nextRev, s.nextId⟩).1 = .error .notFound ∧
    CouchDB.destroy id ⟨delA s.docs t, s.nextRev, s.nextId⟩
      = (0, ⟨delA s.docs t, s.nextRev, s.nextId⟩) := by
  have hg : CouchDB.getAsync id s = .ok d := by
    simp [CouchDB.getAsync, ht, hd]
  have h1 : CouchDB.destroyById id s = (.ok (), ⟨delA s.docs t, s.nextRev, s.nextId⟩) := by
    simp [CouchDB.destroyById, hg, hid, hrev, CouchDB.destroyAsync, JVal.asId, hd, revMatches]
  have hg2 : CouchDB.getAsync id ⟨delA s.docs t, s.nextRev, s.nextId⟩ = .error .notFound := by
    simp [CouchDB.getAsync, ht, getA_delA_self]
  have h2 : CouchDB.destroyById id ⟨delA s.docs t, s.nextRev, s.nextId⟩
      = (.error .notFound, ⟨delA s.docs t, s.nextRev, s.nextId⟩) := by
    simp [CouchDB.destroyById, hg2]
  refine ⟨?_, ?_, ?_, ?_, ?_⟩
  · intro id2 u v u' h
    simp [CouchDB.destroy, h]
  · intro id2 u e u' h
    simp [CouchDB.destroy, h]
  · simp [CouchDB.destroy, h1]
  · simp [h2]
  · simp [CouchDB.destroy, h2]

/-- C5 counterexample: creating a record without an id in the empty store
makes the store assign the id gen-0 and return it in the result, yet the
caller's record is left without any id field — the adapter does not copy
the store-assigned id back onto the record, contrary to the claim's
"mutated in place" part. -/
theorem c5_counterexample :
    (CouchDB.create "id" [("name", JVal.jstr "x")] [] CouchDB.emptyStore).1
      = .ok ("gen-0", "0") ∧
    (CouchDB.create "id" [("name", JVal.jstr "x")] [] CouchDB.emptyStore).2.1
      = [("name", JVal.jstr "x")] ∧
    JObj.get (CouchDB.create "id" [("name", JVal.jstr "x")] [] CouchDB.emptyStore).2.1 "id"
      = none :=
  ⟨rfl, rfl, rfl⟩

/-- C5 (amended): when the record carries a string id value, a successful
create stores the document under exactly that id with that `_id`; when the
id value is absent the store assigns an id which create returns (with the
revision) as its result; in both cases the caller's record object is left
unchanged — reflecting a store-assigned id onto the record is the host
framework's job, done from the returned pair, not by this adapter. -/
theorem c5_create_id_handling (idName : String) (data options : JObj)
    (s : CouchDB.Store) (hopts : JObj.get options "docName" = none) :
    (∀ vs : String, CouchDB.presentIdValue idName data = some (JVal.jstr vs) →
      ∀ i r, (CouchDB.create idName data options s).1 = .ok (i, r) →
        i = vs ∧ ∃ stored,
          getA ((CouchDB.create idName data options s).2.2).docs vs = some stored ∧
          JObj.get stored "_id" = some (JVal.jstr vs)) ∧
    (CouchDB.presentIdValue idName data = none → JObj.get data "_id" = none →
      (CouchDB.create idName data options s).1
        = .ok ("gen-" ++ toString s.nextId, toString s.nextRev) ∧
      ∃ stored,
        getA ((CouchDB.create idName data options s).2.2).docs
          ("gen-" ++ toString s.nextId) = some stored ∧
        JObj.get stored "_id" = some (JVal.jstr ("gen-" ++ toString s.nextId))) ∧
    (CouchDB.create idName data options s).2.1 = data := by
  refine ⟨?_, ?_, rfl⟩
  · intro vs hv i r hok
    have hout : JObj.get (JObj.set data "_id" (JVal.jstr vs)) "_id"
        = some (JVal.jstr vs) := JObj.get_set_self data "_id" (JVal.jstr vs)
    cases hD : getA s.docs vs with
    | none =>
      have hres : (CouchDB.create idName data options s).1 = .ok (vs, toString s.nextRev) ∧
          (CouchDB.create idName data options s).2.2
            = (CouchDB.writeDoc vs (JObj.set data "_id" (JVal.jstr vs)) s).2 := by
        constructor <;>
          simp [CouchDB.create, hv, CouchDB.insertAsync, hopts, hout, JVal.asId, hD,
            CouchDB.writeDoc, Except.map]
      have hi : i = vs := by
        have := hres.1
        rw [hok] at this
        exact (Prod.mk.injEq _ _ _ _).mp (Except.ok.inj this) |>.1
      refine ⟨hi, ?_⟩
      rw [hres.2]
      exact ⟨_, getA_setA_self s.docs vs _, by
        rw [JObj.get_set_other _ _ _ _ (by decide), JObj.get_set_self]⟩
    | some existing =>
      cases hR : revMatches (JObj.get (JObj.set data "_id" (JVal.jstr vs)) "_rev")
          (JObj.get existing "_rev") with
      | false =>
        exfalso
        have : (CouchDB.create idName data options s).1 = .error .conflict := by
          simp [CouchDB.create, hv, CouchDB.insertAsync, hopts, hout, JVal.asId, hD, hR,
            Except.map]
        rw [hok] at this
        exact Except.noConfusion this
      | true =>
        have hres : (CouchDB.create idName data options s).1 = .ok (vs, toString s.nextRev) ∧
            (CouchDB.create idName data options s).2.2
              = (CouchDB.writeDoc vs (JObj.set data "_id" (JVal.jstr vs)) s).2 := by
          constructor <;>
            simp [CouchDB.create, hv, CouchDB.insertAsync, hopts, hout, JVal.asId, hD, hR,
              CouchDB.writeDoc, Except.map]
        have hi : i = vs := by
          have := hres.1
          rw [hok] at this
          exact (Prod.mk.injEq _ _ _ _).mp (Except.ok.inj this) |>.1
        refine ⟨hi, ?_⟩
        rw [hres.2]
        exact ⟨_, getA_setA_self s.docs vs _, by
          rw [JObj.get_set_other _ _ _ _ (by decide), JObj.get_set_self]⟩
  · intro hv hdid
    constructor
    · simp [CouchDB.create, hv, CouchDB.insertAsync, hopts, hdid, CouchDB.writeDoc,
        Except.map]
    · have hst : (CouchDB.create idName data options s).2.2
          = (CouchDB.writeDoc ("gen-" ++ toString s.nextId) data
              { s with nextId := s.nextId + 1 }).2 := by
        simp [CouchDB.create, hv, CouchDB.insertAsync, hopts, hdid]
      rw [hst]
      exact ⟨_, getA_setA_self s.docs _ _, by
        rw [JObj.get_set_other _ _ _ _ (by decide), JObj.get_set_self]⟩

/-- Witness for c5: create with id a against the empty store. -/
theorem c5_witness :
    "a" = "a" ∧ ∃ stored,
      getA ((CouchDB.create "id" [("id", JVal.jstr "a")] [] CouchDB.emptyStore).2.2).docs "a"
        = some stored ∧
      JObj.get stored "_id" = some (JVal.jstr "a") :=
  (c5_create_id_handling "id" [("id", JVal.jstr "a")] [] CouchDB.emptyStore rfl).1
    "a" rfl "a" "0" rfl

/-- C10: frame effects on caller-supplied arguments — create never mutates
the caller's record (it copies before injecting `_id`); save mutates the
caller's options object by setting `options.docName` to the record's id
value whenever the caller passed an options object and the id is present
(and leaves it unchanged when the id is absent); replaceById writes the
fetched document's `_rev` into the caller's record before saving. -/
theorem c10_caller_object_mutation (idName : String) (data options : JObj)
    (opts2 : Option JObj) (id : JVal) (s : CouchDB.Store) :
    (CouchDB.create idName data options s).2.1 = data ∧
    (∀ v, CouchDB.presentIdValue idName data = some v →
      (CouchDB.save idName data (some options) s).2.1
        = some (JObj.set options "docName" v)) ∧
    (CouchDB.presentIdValue idName data = none →
      (CouchDB.save idName data (some options) s).2.1 = some options) ∧
    (∀ res, CouchDB.findById idName id s = .ok res →
      (CouchDB.replaceById idName id data opts2 s).dataAfter
        = JObj.set data "_rev" ((JObj.get res "_rev").getD JVal.null)) := by
  refine ⟨rfl, ?_, ?_, ?_⟩
  · intro v hv
    simp [CouchDB.save, hv]
  · intro hv
    simp [CouchDB.save, hv]
  · intro res hres
    cases hsv : CouchDB.save idName
        (JObj.set data "_rev" ((JObj.get res "_rev").getD JVal.null)) opts2 s with
    | mk rs rest =>
      obtain ⟨oa, s'⟩ := rest
      cases rs with
      | error e => simp [CouchDB.replaceById, hres, hsv]
      | ok ir =>
        cases hf2 : CouchDB.findById idName id s' with
        | error e2 => simp [CouchDB.replaceById, hres, hsv, hf2]
        | ok doc => simp [CouchDB.replaceById, hres, hsv, hf2]

/-- Witness for c10: the save and replace clauses at concrete inputs. -/
theorem c10_witness :
    (CouchDB.save "id" [("id", JVal.jstr "a")]
      (some [("w", JVal.jbool true)]) CouchDB.emptyStore).2.1
      = some (JObj.set [("w", JVal.jbool true)] "docName" (JVal.jstr "a")) ∧
    (CouchDB.replaceById "id" (JVal.jstr "a") [("name", JVal.jstr "n")] none
      ⟨[("a", [("_id", JVal.jstr "a"), ("_rev", JVal.jstr "0")])], 1, 0⟩).dataAfter
      = JObj.set [("name", JVal.jstr "n")] "_rev"
          ((JObj.get [("_id", JVal.jstr "a"), ("_rev", JVal.jstr "0"),
            ("id", JVal.jstr "a")] "_rev").getD JVal.null) := by
  have h := c10_caller_object_mutation "id" [("id", JVal.jstr "a")] [("w", JVal.jbool true)]
    none (JVal.jstr "a") CouchDB.emptyStore
  have h2 := c10_caller_object_mutation "id" [("name", JVal.jstr "n")] []
    none (JVal.jstr "a")
    ⟨[("a", [("_id", JVal.jstr "a"), ("_rev", JVal.jstr "0")])], 1, 0⟩
  exact ⟨h.2.1 (JVal.jstr "a") rfl, h2.2.2.2
    [("_id", JVal.jstr "a"), ("_rev", JVal.jstr "0"), ("id", JVal.jstr "a")] rfl⟩

/-- Witness for c3: destroying document a twice in a one-document store. -/
theorem c3_witness :
    CouchDB.destroy (JVal.jstr "a")
      ⟨[("a", [("_id", JVal.jstr "a"), ("_rev", JVal.jstr "0")])], 1, 0⟩ = (1, ⟨[], 1, 0⟩) ∧
    CouchDB.destroy (JVal.jstr "a") ⟨[], 1, 0⟩ = (0, ⟨[], 1, 0⟩) := by
  have h := c3_destroy_counts (JVal.jstr "a") "a" "0"
    ⟨[("a", [("_id", JVal.jstr "a"), ("_rev", JVal.jstr "0")])], 1, 0⟩
    [("_id", JVal.jstr "a"), ("_rev", JVal.jstr "0")] rfl rfl rfl rfl
  exact ⟨h.2.2.1, h.2.2.2.2⟩

/-- C6: the design-document sync is idempotent on document fields — running
it twice with the same duplicate-free definition leaves the stored design
document's fields unchanged except for the revision token; one run
overwrites every field of the configured definition onto the stored
document and preserves every stored field absent from the definition (so
fields added by another writer survive). -/
theorem c6_saveDesignDocs_idempotent (s : CouchDB.Store) (name : String) (dd : JObj)
    (hnd : (dd.map Prod.fst).Nodup)
    (hrev : JObj.get dd "_rev" = none)
    (hstored : ∀ e, getA s.docs ("_design/" ++ name) = some e →
      ∃ r, JObj.get e "_rev" = some (JVal.jstr r)) :
    ∃ d₁ d₂,
      getA ((CouchDB.saveDesignDoc name dd s).2).docs ("_design/" ++ name) = some d₁ ∧
      getA ((CouchDB.saveDesignDoc name dd
        (CouchDB.saveDesignDoc name dd s).2).2).docs ("_design/" ++ name) = some d₂ ∧
      (∀ k, k ≠ "_rev" → JObj.get d₂ k = JObj.get d₁ k) ∧
      (∀ k v, k ≠ "_rev" → k ≠ "_id" → JObj.get dd k = some v →
        JObj.get d₁ k = some v) ∧
      (∀ e, getA s.docs ("_design/" ++ name) = some e →
        ∀ k, k ≠ "_rev" → k ≠ "_id" → JObj.get dd k = none →
          JObj.get d₁ k = JObj.get e k) := by
  have hrun1 := saveDesignDoc_run name dd s hrev hstored
  set dn := "_design/" ++ name with hdn
  set X₁ := (getA s.docs dn).elim dd (fun e => CouchDB.mergeObj e dd) with hX₁
  set d₁ := JObj.set (JObj.set X₁ "_id" (JVal.jstr dn)) "_rev"
    (JVal.jstr (toString s.nextRev)) with hd₁
  have h1 : getA ((CouchDB.saveDesignDoc name dd s).2).docs dn = some d₁ := by
    rw [hrun1]
    exact getA_setA_self _ _ _
  have hst1 : ∀ e, getA ((CouchDB.saveDesignDoc name dd s).2).docs dn = some e →
      ∃ r, JObj.get e "_rev" = some (JVal.jstr r) := by
    intro e he
    rw [h1] at he
    obtain rfl : d₁ = e := Option.some.inj he
    exact ⟨toString s.nextRev, JObj.get_set_self _ _ _⟩
  have hrun2 := saveDesignDoc_run name dd (CouchDB.saveDesignDoc name dd s).2 hrev hst1
  rw [h1] at hrun2
  simp only [Option.elim] at hrun2
  set r₂ := toString ((CouchDB.saveDesignDoc name dd s).2).nextRev with hr₂
  set d₂ := JObj.set (JObj.set (CouchDB.mergeObj d₁ dd) "_id" (JVal.jstr dn)) "_rev"
    (JVal.jstr r₂) with hd₂
  have h2 : getA ((CouchDB.saveDesignDoc name dd
      (CouchDB.saveDesignDoc name dd s).2).2).docs dn = some d₂ := by
    rw [hrun2]
    exact getA_setA_self _ _ _
  have hgX₁ : ∀ k, k ≠ "_rev" → k ≠ "_id" → JObj.get d₁ k = JObj.get X₁ k := by
    intro k hkr hki
    rw [hd₁, JObj.get_set_other _ _ _ _ hkr, JObj.get_set_other _ _ _ _ hki]
  have h4 : ∀ k v, k ≠ "_rev" → k ≠ "_id" → JObj.get dd k = some v →
      JObj.get d₁ k = some v := by
    intro k v hkr hki hv
    rw [hgX₁ k hkr hki, hX₁]
    cases hE : getA s.docs dn with
    | none => simpa [Option.elim] using hv
    | some e => simpa [Option.elim] using get_mergeObj_of_get e dd k v hnd hv
  have h5 : ∀ e, getA s.docs dn = some e →
      ∀ k, k ≠ "_rev" → k ≠ "_id" → JObj.get dd k = none →
        JObj.get d₁ k = JObj.get e k := by
    intro e he k hkr hki hk
    rw [hgX₁ k hkr hki, hX₁, he]
    simpa [Option.elim] using get_mergeObj_notin e dd k hk
  have h3 : ∀ k, k ≠ "_rev" → JObj.get d₂ k = JObj.get d₁ k := by
    intro k hkr
    by_cases hki : k = "_id"
    · subst hki
      rw [hd₂, hd₁]
      rw [JObj.get_set_other _ _ _ _ (by decide), JObj.get_set_self,
        JObj.get_set_other _ _ _ _ (by decide), JObj.get_set_self]
    · have hL : JObj.get d₂ k = JObj.get (CouchDB.mergeObj d₁ dd) k := by
        rw [hd₂, JObj.get_set_other _ _ _ _ hkr, JObj.get_set_other _ _ _ _ hki]
      rw [hL]
      cases hk : JObj.get dd k with
      | none => exact get_mergeObj_notin d₁ dd k hk
      | some v =>
        rw [get_mergeObj_of_get d₁ dd k v hnd hk]
        exact (h4 k v hkr hki hk).symm
  exact ⟨d₁, d₂, h1, h2, h3, h4, h5⟩

/-- Witness for c6: syncing one design document twice from the empty store. -/
theorem c6_witness : ∃ d₁ d₂,
    getA ((CouchDB.saveDesignDoc "v" [("views", JVal.jobj [])]
      CouchDB.emptyStore).2).docs ("_design/" ++ "v") = some d₁ ∧
    getA ((CouchDB.saveDesignDoc "v" [("views", JVal.jobj [])]
      (CouchDB.saveDesignDoc "v" [("views", JVal.jobj [])]
        CouchDB.emptyStore).2).2).docs ("_design/" ++ "v") = some d₂ ∧
    (∀ k, k ≠ "_rev" → JObj.get d₂ k = JObj.get d₁ k) ∧
    (∀ k v, k ≠ "_rev" → k ≠ "_id" →
      JObj.get [("views", JVal.jobj [])] k = some v → JObj.get d₁ k = some v) ∧
    (∀ e, getA CouchDB.emptyStore.docs ("_design/" ++ "v") = some e →
      ∀ k, k ≠ "_rev" → k ≠ "_id" → JObj.get [("views", JVal.jobj [])] k = none →
        JObj.get d₁ k = JObj.get e k) :=
  c6_saveDesignDocs_idempotent CouchDB.emptyStore "v" [("views", JVal.jobj [])]
    (by decide) rfl (fun _ he => Option.noConfusion he)

/-- C7 (code bug): with the database name supplied only under the db key,
connect succeeds and binds the connection to mydb, but getDB, autoupdate
and automigrate read settings.database, which the local-copy normalization
in connect never set; the lifecycle operations therefore check and create
a database named by the URL coercion of the missing value (the literal
path segment undefined), not the configured mydb — even when mydb exists,
getDB reports false. -/
theorem c7_db_alias_lifecycle_mismatch :
    CouchDB.connectDbName ⟨none, some "mydb", none⟩ = some "mydb" ∧
    CouchDB.lifecycleDbName ⟨none, some "mydb", none⟩ = "undefined" ∧
    CouchDB.autoupdate ⟨none, some "mydb", none⟩ ⟨[]⟩
      = .ok ⟨[("undefined", CouchDB.emptyStore)]⟩ ∧
    getA ([("undefined", CouchDB.emptyStore)] :
      List (String × CouchDB.Store)) "mydb" = none ∧
    CouchDB.getDB ⟨none, some "mydb", none⟩ ⟨[("mydb", CouchDB.emptyStore)]⟩ = false :=
  ⟨rfl, rfl, rfl, rfl, rfl⟩

/-- C8: the adapter keeps at most one connection handle — a connect that
returned a handle returns exactly that handle and state again; connect on
an unconnected adapter with no configured database name fails with the
configuration error; disconnect always succeeds and nulls the handle; the
connect after a disconnect initializes a fresh handle, distinct from the
previous one. -/
theorem c8_connection_handle (st : CouchDB.Settings) (a : CouchDB.AdapterState) :
    (∀ c a', CouchDB.connect st a = .ok (c, a') → CouchDB.connect st a' = .ok (c, a')) ∧
    (a.connection = none → CouchDB.connectDbName st = none →
      CouchDB.connect st a = .error .configError) ∧
    (CouchDB.disconnect a).1 = true ∧
    ((CouchDB.disconnect a).2).connection = none ∧
    (∀ n, CouchDB.connectDbName st = some n →
      CouchDB.connect st (CouchDB.disconnect a).2
        = .ok (⟨n, a.nextHandle⟩, ⟨some ⟨n, a.nextHandle⟩, a.nextHandle + 1⟩)) ∧
    (∀ c, a.connection = some c → c.handleId < a.nextHandle →
      ∀ n c' a'', CouchDB.connectDbName st = some n →
        CouchDB.connect st (CouchDB.disconnect a).2 = .ok (c', a'') → c' ≠ c) := by
  refine ⟨?_, ?_, rfl, rfl, ?_, ?_⟩
  · intro c a' h
    cases hc : a.connection with
    | some c0 =>
      simp only [CouchDB.connect, hc] at h
      obtain ⟨h1, h2⟩ := Prod.mk.injEq c0 a c a' ▸ Except.ok.inj h
      subst h1
      subst h2
      simp [CouchDB.connect, hc]
    | none =>
      cases hn : CouchDB.connectDbName st with
      | none => simp [CouchDB.connect, hc, hn] at h
      | some n =>
        simp only [CouchDB.connect, hc, hn] at h
        obtain ⟨h1, h2⟩ := Prod.mk.injEq _ _ c a' ▸ Except.ok.inj h
        subst h1
        subst h2
        simp [CouchDB.connect]
  · intro h1 h2
    simp [CouchDB.connect, h1, h2]
  · intro n hn
    simp [CouchDB.connect, CouchDB.disconnect, hn]
  · intro c hc hlt n c' a'' hn h
    simp only [CouchDB.connect, CouchDB.disconnect, hn] at h
    obtain ⟨h1, _⟩ := Prod.mk.injEq _ _ c' a'' ▸ Except.ok.inj h
    intro he
    rw [he] at h1
    rw [← h1] at hlt
    simp at hlt

/-- Witness for c8: the lifecycle at a concrete configuration and state. -/
theorem c8_witness :
    CouchDB.connect ⟨some "d", none, none⟩ ⟨some ⟨"d", 0⟩, 1⟩
      = .ok (⟨"d", 0⟩, ⟨some ⟨"d", 0⟩, 1⟩) ∧
    CouchDB.connect ⟨some "d", none, none⟩
      (CouchDB.disconnect ⟨some ⟨"d", 0⟩, 1⟩).2
      = .ok (⟨"d", 1⟩, ⟨some ⟨"d", 1⟩, 2⟩) ∧
    CouchDB.connect ⟨none, none, none⟩ ⟨none, 0⟩ = .error .configError := by
  have h := c8_connection_handle ⟨some "d", none, none⟩ ⟨some ⟨"d", 0⟩, 1⟩
  have h0 := c8_connection_handle ⟨none, none, none⟩ ⟨none, 0⟩
  exact ⟨h.1 ⟨"d", 0⟩ ⟨some ⟨"d", 0⟩, 1⟩ rfl, h.2.2.2.2.1 "d" rfl, h0.2.1 rfl rfl⟩

/-- C9 counterexample: with a design document configured, automigrate on a
database that contains that design document recreates it, so findById on
the previously-existing id design-slash-v succeeds afterwards instead of
failing with NotFound as the claim requires for every previously-existing
id. -/
theorem c9_counterexample :
    CouchDB.serverFindById
      ⟨some "d", none, some [("v", [("views", JVal.jobj [])])]⟩
      ⟨[("d", ⟨[("_design/v",
        [("_id", JVal.jstr "_design/v"), ("_rev", JVal.jstr "0"),
         ("views", JVal.jobj [])])], 1, 0⟩)]⟩
      "id" (JVal.jstr "_design/v")
      = .ok [("_id", JVal.jstr "_design/v"), ("_rev", JVal.jstr "0"),
             ("views", JVal.jobj []), ("id", JVal.jstr "_design/v")] ∧
    CouchDB.automigrate
      ⟨some "d", none, some [("v", [("views", JVal.jobj [])])]⟩
      ⟨[("d", ⟨[("_design/v",
        [("_id", JVal.jstr "_design/v"), ("_rev", JVal.jstr "0"),
         ("views", JVal.jobj [])])], 1, 0⟩)]⟩
      = .ok ⟨[("d", ⟨[("_design/v",
        [("views", JVal.jobj []), ("_id", JVal.jstr "_design/v"),
         ("_rev", JVal.jstr "0")])], 1, 0⟩)]⟩ ∧
    CouchDB.serverFindById
      ⟨some "d", none, some [("v", [("views", JVal.jobj [])])]⟩
      ⟨[("d", ⟨[("_design/v",
        [("views", JVal.jobj []), ("_id", JVal.jstr "_design/v"),
         ("_rev", JVal.jstr "0")])], 1, 0⟩)]⟩
      "id" (JVal.jstr "_design/v")
      = .ok [("views", JVal.jobj []), ("_id", JVal.jstr "_design/v"),
             ("_rev", JVal.jstr "0"), ("id", JVal.jstr "_design/v")] :=
  ⟨rfl, rfl, rfl⟩

/-- C9 (amended): automigrate on a configuration whose database key is set
destroys the existing database unconditionally and recreates it fresh;
afterwards findById fails with NotFound on every id except the configured
design-document ids, which the sync step recreates. -/
theorem c9_automigrate_fresh (st : CouchDB.Settings) (n : String)
    (srv srv' : CouchDB.Server) (idName : String) (id : JVal)
    (hn : st.database = some n) (hne : n ≠ "")
    (hok : CouchDB.automigrate st srv = .ok srv')
    (hdd : ∀ dds, st.designDocs = some dds →
      ∀ nm ∈ dds.map Prod.fst, id ≠ JVal.jstr ("_design/" ++ nm)) :
    CouchDB.serverFindById st srv' idName id = .error .notFound := by
  have hc : CouchDB.connectDbName st = some n := by
    simp [CouchDB.connectDbName, hn, CouchDB.falsyName, hne]
  have hl : CouchDB.lifecycleDbName st = n := by
    simp [CouchDB.lifecycleDbName, hn]
  have hfresh : ∀ t, JVal.asId id = some t →
      ∀ dds, st.designDocs = some dds →
        getA (CouchDB.saveDesignDocs dds CouchDB.emptyStore).docs t = none := by
    intro t ht dds hdds
    have hidv : id = JVal.jstr t := JVal.asId_eq_some id t ht
    have hnm : ∀ nm ∈ dds.map Prod.fst, t ≠ "_design/" ++ nm := by
      intro nm hm heq
      exact (hdd dds hdds nm hm) (by rw [hidv, heq])
    rw [getA_saveDesignDocs_other dds CouchDB.emptyStore t hnm]
    rfl
  cases hdds : st.designDocs with
  | none =>
    cases hex : (getA srv.dbs n).isSome with
    | true =>
      have hm : CouchDB.automigrate st srv
          = .ok ⟨setA (delA srv.dbs n) n CouchDB.emptyStore⟩ := by
        simp [CouchDB.automigrate, hc, hl, hdds, hex]
      rw [hm] at hok
      obtain rfl := (Except.ok.inj hok).symm
      simp only [CouchDB.serverFindById, hc, getA_setA_self]
      exact findById_notFound idName id CouchDB.emptyStore (fun _ _ => rfl)
    | false =>
      have hm : CouchDB.automigrate st srv
          = .ok ⟨setA srv.dbs n CouchDB.emptyStore⟩ := by
        simp [CouchDB.automigrate, hc, hl, hdds, hex]
      rw [hm] at hok
      obtain rfl := (Except.ok.inj hok).symm
      simp only [CouchDB.serverFindById, hc, getA_setA_self]
      exact findById_notFound idName id CouchDB.emptyStore (fun _ _ => rfl)
  | some dds =>
    cases hex : (getA srv.dbs n).isSome with
    | true =>
      have hm : CouchDB.automigrate st srv
          = .ok ⟨setA (setA (delA srv.dbs n) n CouchDB.emptyStore) n
              (CouchDB.saveDesignDocs dds CouchDB.emptyStore)⟩ := by
        simp [CouchDB.automigrate, hc, hl, hdds, hex, CouchDB.syncDesignDocs,
          getA_setA_self]
      rw [hm] at hok
      obtain rfl := (Except.ok.inj hok).symm
      simp only [CouchDB.serverFindById, hc, getA_setA_self]
      exact findById_notFound idName id _ (fun t ht => hfresh t ht dds hdds)
    | false =>
      have hm : CouchDB.automigrate st srv
          = .ok ⟨setA (setA srv.dbs n CouchDB.emptyStore) n
              (CouchDB.saveDesignDocs dds CouchDB.emptyStore)⟩ := by
        simp [CouchDB.automigrate, hc, hl, hdds, hex, CouchDB.syncDesignDocs,
          getA_setA_self]
      rw [hm] at hok
      obtain rfl := (Except.ok.inj hok).symm
      simp only [CouchDB.serverFindById, hc, getA_setA_self]
      exact findById_notFound idName id _ (fun t ht => hfresh t ht dds hdds)

/-- Witness for c9: automigrate from the empty server, then a lookup. -/
theorem c9_witness :
    CouchDB.serverFindById ⟨some "d", none, none⟩ ⟨[("d", CouchDB.emptyStore)]⟩
      "id" (JVal.jstr "a") = .error .notFound :=
  c9_automigrate_fresh ⟨some "d", none, none⟩ "d" ⟨[]⟩ ⟨[("d", CouchDB.emptyStore)]⟩
    "id" (JVal.jstr "a") rfl (by decide) rfl (fun _ h => Option.noConfusion h)
